import Mathlib

/-!
Shallow embedding of the command-and-notification layer of
`src/notification/telegram.go` (package `notification`).

Modelling conventions:
* Go strings are `String` / `List Char`; the two package-level regular
  expressions `buyRegexp` and `sellRegexp` (telegram.go:21-22) are embedded as
  a direct matcher for their exact patterns
  `/buy\s+(?P<pair>\w+)\s+(?P<amount>\d+(?:\.\d+)?)(?P<percent>%)?` (and the
  `/sell` twin).  For these patterns greedy leftmost-first matching never
  backtracks (every greedy element is followed by a disjoint character class,
  and the two trailing groups are optional), so maximal-munch scanning from
  the leftmost position is an exact embedding of `FindStringSubmatch`.
* Go `float64` values are embedded as exact rationals `ℚ`;
  `strconv.ParseFloat` on a string matched by the amount group is embedded as
  the exact decimal value, with its three boundary regimes reproduced: the
  value fails (Go `ErrRange`) when it is at least `(2^54 - 1) * 2^970` (the
  round-to-nearest overflow boundary of `float64`) and also when it is
  nonzero with decimal exponent below `-330` (the obvious-underflow cutoff
  `d.dp < -330` of `strconv/atof.go`, again `ErrRange`); a remaining nonzero
  value no bigger than `2^-1075` (half the least subnormal) rounds to exactly
  `0` with no error, as IEEE round-to-nearest-even prescribes.
* Calls to the external engine (`order.Controller`), the outbound sends and
  the `OnError` classifier call are recorded as an effect trace `List Eff` in
  source order; the handler's Go `error` return value is an `Option String`.
  Direct replies to the requesting sender (`t.client.Send(c.Sender(), …)`)
  are modelled as succeeding, so their returned error is `none`.
-/

namespace NinjaTg

/-- RE2 class `\w` = `[0-9A-Za-z_]` (ASCII, as Go applies it here). -/
def wordChar (c : Char) : Bool := c.isAlphanum || c == '_'

/-- RE2 class `\s` = `[\t\n\f\r ]`. -/
def spaceChar (c : Char) : Bool :=
  c == ' ' || c == '\t' || c == '\n' || c == '\x0c' || c == '\r'

/-- RE2 class `\d` = `[0-9]`. -/
def digitChar (c : Char) : Bool := c.isDigit

/-- The three named capture groups of `buyRegexp` / `sellRegexp`
(telegram.go:21-22): `pair`, `amount` (as the matched substring) and whether
the optional `percent` group matched. -/
structure RawIntent where
  pair : List Char
  amountStr : List Char
  percent : Bool
deriving DecidableEq, Repr

/-- The optional group `(?P<percent>%)?`: matches exactly when the next
character is `%`. -/
def percentOpt : List Char → Bool
  | '%' :: _ => true
  | _ => false

/-- Match `\s+(?P<pair>\w+)\s+(?P<amount>\d+(?:\.\d+)?)(?P<percent>%)?`
against the text that follows the command keyword.  Each `+` takes its
maximal run (leftmost-first greedy matching; no backtracking is possible for
this pattern, see the header comment). -/
def matchArgs (s : List Char) : Option RawIntent :=
  let sp1 := s.span spaceChar
  if sp1.1.isEmpty then none else
  let pr := sp1.2.span wordChar
  if pr.1.isEmpty then none else
  let sp2 := pr.2.span spaceChar
  if sp2.1.isEmpty then none else
  let ip := sp2.2.span digitChar
  if ip.1.isEmpty then none else
  match ip.2 with
  | '.' :: r5 =>
      let fp := r5.span digitChar
      if fp.1.isEmpty then some ⟨pr.1, ip.1, percentOpt ip.2⟩
      else some ⟨pr.1, ip.1 ++ '.' :: fp.1, percentOpt fp.2⟩
  | _ => some ⟨pr.1, ip.1, percentOpt ip.2⟩

/-- Attempt of the full pattern at one position: the literal command keyword
followed by the argument pattern. -/
def matchHere (kw : List Char) (s : List Char) : Option RawIntent :=
  if kw.isPrefixOf s then matchArgs (s.drop kw.length) else none

/-- `FindStringSubmatch`: the pattern is unanchored, so the match is taken at
the leftmost position where the whole pattern succeeds. -/
def findFrom (kw : List Char) : List Char → Option RawIntent
  | [] => matchHere kw []
  | c :: rest =>
    match matchHere kw (c :: rest) with
    | some m => some m
    | none => findFrom kw (rest)

/-- Go `buyRegexp.FindStringSubmatch` (telegram.go:21, used at telegram.go:220). -/
def buyFind (text : String) : Option RawIntent := findFrom "/buy".data text.data

/-- Go `sellRegexp.FindStringSubmatch` (telegram.go:22, used at telegram.go:270). -/
def sellFind (text : String) : Option RawIntent := findFrom "/sell".data text.data

/-- Numeric value of a run of decimal digits. -/
def digitsVal (ds : List Char) : Nat :=
  ds.foldl (fun n c => 10 * n + (c.toNat - 48)) 0

/-- Exact value of a decimal literal of the shape `\d+(\.\d+)?`. -/
def decimalValue (s : List Char) : ℚ :=
  let ip := s.span digitChar
  match ip.2 with
  | '.' :: fp => (digitsVal ip.1 : ℚ) + (digitsVal fp : ℚ) / (10 : ℚ) ^ fp.length
  | _ => (digitsVal ip.1 : ℚ)

/-- Overflow boundary of `strconv.ParseFloat(_, 64)`: a decimal value at
least `(2^54 - 1) * 2^970` (half an ULP above `math.MaxFloat64 =
(2^53 - 1) * 2^971`) rounds beyond the largest finite `float64` and makes
`ParseFloat` return `ErrRange`.  The numeral below is that product, written
out so that proofs can evaluate it directly. -/
def floatRangeBound : ℚ :=
  179769313486231580793728971405303415079934132710037826936173778980444968292764750946649017977587207096330286416692887910946555547851940402630657488671505820681908902000708383676273854845817711531764475730270069855571366959622842914819860834936475292719074168444365510704342711559699508093042880177904174497792

/-- Digit string of the integer part of a `\d+(\.\d+)?` literal. -/
def intPartOf (s : List Char) : List Char := s.takeWhile digitChar

/-- Digit string of the fractional part of a `\d+(\.\d+)?` literal (empty
when there is no fraction). -/
def fracPartOf (s : List Char) : List Char :=
  match s.dropWhile digitChar with
  | '.' :: r => r
  | _ => []

/-- Count of leading `0` digits. -/
def leadZeros (l : List Char) : Nat := (l.takeWhile (fun c => c == '0')).length

/-- Whether every digit is `0`. -/
def allZero (l : List Char) : Bool := l.all (fun c => c == '0')

/-- The obvious-underflow cutoff of Go's slow decimal-to-float path
(`strconv/atof.go`, `floatBits`): a nonzero value whose decimal exponent is
below `-330` — i.e. an all-zero integer part and at least `331` zeros before
the first significant fraction digit — yields `(0, ErrRange)`.  A decimal
value `v > 0` satisfies this exactly when `v < 10^-331`. -/
def underflowRange (s : List Char) : Bool :=
  allZero (intPartOf s) && !allZero (fracPartOf s) && 331 ≤ leadZeros (fracPartOf s)

/-- The numeral is `2^1075`, written out so proofs can evaluate it: a value
`v` with `v ≤ 2^-1075` (half the least subnormal `2^-1074`) rounds to exactly
`0` under round-to-nearest-even, which Go reports with no error.  On the
digit strings this is `intDigits.fracDigits * 2^1075 ≤ 10^fracLength`. -/
def two_pow_1075 : Nat :=
  404804506614621236704990693437834614099113299528284236713802716054860679135990693783920767402874248990374155728633623822779617474771586953734026799881477019843034848553132722728933815484186432682479535356945490137124014966849385397236206711298319112681620113024717539104666829230461005064372655017292012526615415482186989568

/-- Whether the decimal value rounds to exactly `0.0` in `float64`
round-to-nearest-even: value at most `2^-1075`. -/
def roundsToZero (s : List Char) : Bool :=
  Nat.ble (digitsVal (intPartOf s ++ fracPartOf s) * two_pow_1075)
    (10 ^ (fracPartOf s).length)

/-- Go `strconv.ParseFloat(s, 64)` restricted to strings matched by the amount
group `\d+(\.\d+)?` (its only call sites, telegram.go:237 and
telegram.go:288): Go's `ErrRange` failure when the value overflows `float64`
or falls under the obvious-underflow cutoff (decimal exponent below `-330`);
exactly `0` (no error) when the remaining value rounds to zero; otherwise the
exact decimal value. -/
def parseFloat (s : List Char) : Except String ℚ :=
  if floatRangeBound ≤ decimalValue s then
    Except.error "strconv.ParseFloat: parsing: value out of range"
  else if underflowRange s then
    Except.error "strconv.ParseFloat: parsing: value out of range"
  else if roundsToZero s then Except.ok 0
  else Except.ok (decimalValue s)

/-- Embedding of `strings.ToUpper` on a `\w+` token (telegram.go:236, telegram.go:287). -/
def upperPair (cs : List Char) : String := String.mk (cs.map Char.toUpper)

/-- Go `model.SideTypeBuy` / `model.SideTypeSell`. -/
inductive Side
  | buy
  | sell
deriving DecidableEq, Repr

/-- Modelled from the spec: `BotRunState` is the external engine's two-valued
run state `{Running, Stopped}` (spec §3); the engine-side `order.Status` type
(`order.StatusRunning`, `order.StatusStopped`, compared at telegram.go:334 and
telegram.go:351) is not part of the sources under verification. -/
inductive BotStatus
  | running
  | stopped
deriving DecidableEq, Repr

/-- One balance entry of the engine account: `Free` and `Lock` parts
(telegram.go:150-151). -/
structure Balance where
  free : ℚ
  lock : ℚ
deriving DecidableEq, Repr

/-- Structural embedding of the lines appended to the `/balance` report
string (telegram.go:163, telegram.go:168, telegram.go:171); the numeric
values are kept exact instead of `%.4f`-formatted. -/
inductive BalLine
  | pairLine (asset : String) (assetSize assetValue : ℚ) (quote : String)
  | quoteLine (quote : String) (value : ℚ)
  | totalLine (total : ℚ)
deriving DecidableEq, Repr

/-- Observable effects of one handler run, in source order: direct replies to
the requesting sender (`t.client.Send(c.Sender(), …)`), the `t.OnError`
classifier call (which broadcasts via `t.Notify`), and each call into the
external engine (`t.orderController`). -/
inductive Eff
  | reply (text : String)
  | replyReport (lines : List BalLine)
  | notifyError
  | accountLookup
  | quoteLookup (pair : String)
  | positionLookup (pair : String)
  | orderQuote (side : Side) (pair : String) (amount : ℚ)
  | orderAsset (side : Side) (pair : String) (amount : ℚ)
  | engineStart
  | engineStop
  | commandsLookup
deriving DecidableEq, Repr

/-- The external collaborators of one handler run: the `order.Controller`
engine interface (spec §6) and `t.client.Commands()`.  Fallible calls return
`Except` with the Go error text. -/
structure Engine where
  status : BotStatus
  position : String → Except String (ℚ × ℚ)
  createOrderMarketQuote : Side → String → ℚ → Except String Unit
  createOrderMarket : Side → String → ℚ → Except String Unit
  account : Except String (String → Balance)
  lastQuote : String → Except String ℚ
  splitAssetQuote : String → String × String
  commands : Except String (List (String × String))
  results : List (String × String)

/-- Go `model.Settings` as read by this file: the Telegram user allow-list and
the configured trading pairs. -/
structure Settings where
  users : List Int
  pairs : List String

/-- Go `tb.User` as sender of an update. -/
structure Sender where
  id : Int
deriving DecidableEq, Repr

/-- Go `tb.Message`: optional sender plus command text. -/
structure Message where
  sender : Option Sender
  text : String
deriving DecidableEq, Repr

/-- Go `tb.Update`: optional message. -/
structure Update where
  message : Option Message
deriving DecidableEq, Repr

/-- The middleware filter closure handed to `tb.NewMiddlewarePoller`
(telegram.go:38-52): reject updates without message or sender, accept exactly
the senders whose id equals an allow-list entry. -/
def accessFilter (users : List Int) (u : Update) : Bool :=
  match u.message with
  | none => false
  | some msg =>
    match msg.sender with
    | none => false
    | some s => users.any (fun user => s.id == user)

/-- Usage reply literal of `BuyHandle` (telegram.go:222). -/
def buyUsage : String :=
  "Invalid command.\nExamples of usage:\n`/buy BTCUSDT 100`\n\n`/buy BTCUSDT 50%`"

/-- Usage reply literal of `SellHandle` (telegram.go:273). -/
def sellUsage : String :=
  "Invalid command.\nExample of usage:\n`/sell BTCUSDT 100`\n\n`/sell BTCUSDT 50%`"

/-- Handler `BuyHandle` (telegram.go:219-267). -/
def BuyHandle (eng : Engine) (text : String) : List Eff × Option String :=
  match buyFind text with
  | none => ([.reply buyUsage], none)
  | some m =>
    match parseFloat m.amountStr with
    | .error e => ([.notifyError], some e)
    | .ok amount =>
      if amount ≤ 0 then ([.reply "Invalid amount"], none)
      else
        let pair := upperPair m.pair
        if m.percent then
          match eng.position pair with
          | .error e => ([.positionLookup pair, .notifyError], some e)
          | .ok pq =>
            let amount := amount * pq.2 / 100
            ([.positionLookup pair, .orderQuote .buy pair amount],
              match eng.createOrderMarketQuote .buy pair amount with
              | .error e => some e
              | .ok _ => none)
        else
          ([.orderQuote .buy pair amount],
            match eng.createOrderMarketQuote .buy pair amount with
            | .error e => some e
            | .ok _ => none)

/-- Handler `SellHandle` (telegram.go:269-322).  In the percent branch a position
lookup failure is returned to the caller without a `t.OnError` call
(telegram.go:303-305). -/
def SellHandle (eng : Engine) (text : String) : List Eff × Option String :=
  match sellFind text with
  | none => ([.reply sellUsage], none)
  | some m =>
    match parseFloat m.amountStr with
    | .error e => ([.notifyError], some e)
    | .ok amount =>
      if amount ≤ 0 then ([.reply "Invalid amount"], none)
      else
        let pair := upperPair m.pair
        if m.percent then
          match eng.position pair with
          | .error e => ([.positionLookup pair], some e)
          | .ok pq =>
            let amount := amount * pq.1 / 100
            ([.positionLookup pair, .orderAsset .sell pair amount],
              match eng.createOrderMarket .sell pair amount with
              | .error e => some e
              | .ok _ => none)
        else
          ([.orderQuote .sell pair amount],
            match eng.createOrderMarketQuote .sell pair amount with
            | .error e => some e
            | .ok _ => none)

/-- Fan-out `t.Notify` (telegram.go:125-132): one send attempt per allow-listed user
in order; a failed send is only logged.  The result is the trace of attempts
`(user, text, send failed?)`; like the Go func, it has no error result. -/
def Notify (sendFail : Int → Bool) (text : String) : List Int → List (Int × String × Bool)
  | [] => []
  | u :: rest => (u, text, sendFail u) :: Notify sendFail text rest

/-- Handler `StartHandle` (telegram.go:333-348), acting on the engine run state: the
second component is the engine state after the handler. -/
def StartHandle (st : BotStatus) : List Eff × BotStatus :=
  if st = BotStatus.running then ([.reply "Bot is already running."], st)
  else ([.engineStart, .reply "Bot started."], BotStatus.running)

/-- Handler `StopHandle` (telegram.go:350-365). -/
def StopHandle (st : BotStatus) : List Eff × BotStatus :=
  if st = BotStatus.stopped then ([.reply "Bot is already stopped."], st)
  else ([.engineStop, .reply "Bot stopped."], BotStatus.stopped)

/-- Handler `StatusHandle` (telegram.go:324-331). -/
def StatusHandle (st : BotStatus) : List Eff :=
  [.reply ("Status: `" ++ (match st with
    | .running => "running"
    | .stopped => "stopped") ++ "`")]

/-- Handler `HelpHandle` (telegram.go:180-199). -/
def HelpHandle (eng : Engine) : List Eff × Option String :=
  match eng.commands with
  | .error e => ([.commandsLookup, .notifyError], some e)
  | .ok cmds =>
    ([.commandsLookup,
      .reply (String.intercalate "\n" (cmds.map (fun c => "/" ++ c.1 ++ " - " ++ c.2)))],
     none)

/-- Handler `ProfitHandle` (telegram.go:201-217). -/
def ProfitHandle (eng : Engine) : List Eff :=
  if eng.results.isEmpty then [.reply "No trades registered."]
  else eng.results.map (fun r => .reply ("*PAIR*: `" ++ r.1 ++ "`\n`" ++ r.2 ++ "`"))

/-- Assignment `quotesValue[quotePair] = quoteSize` (telegram.go:161) on the
map embedded as an association list in insertion order. -/
def quotesInsert (qv : List (String × ℚ)) (k : String) (v : ℚ) : List (String × ℚ) :=
  if qv.any (fun kv => kv.1 == k) then
    qv.map (fun kv => if kv.1 == k then (k, v) else kv)
  else qv ++ [(k, v)]

/-- The per-pair loop of `BalanceHandle` (telegram.go:146-164), carrying the
accumulated report lines, quote map and running total; the effect trace
records each `LastQuote` engine call. -/
def balLoop (eng : Engine) (acct : String → Balance) :
    List String → List BalLine → List (String × ℚ) → ℚ →
    List Eff × Except String (List BalLine × List (String × ℚ) × ℚ)
  | [], lines, qv, total => ([], .ok (lines, qv, total))
  | p :: rest, lines, qv, total =>
    let aq := eng.splitAssetQuote p
    let assetSize := (acct aq.1).free + (acct aq.1).lock
    let quoteSize := (acct aq.2).free + (acct aq.2).lock
    match eng.lastQuote p with
    | .error e => ([.quoteLookup p], .error e)
    | .ok quote =>
      let assetValue := assetSize * quote
      let step := balLoop eng acct rest
        (lines ++ [.pairLine aq.1 assetSize assetValue aq.2])
        (quotesInsert qv aq.2 quoteSize) (total + assetValue)
      (Eff.quoteLookup p :: step.1, step.2)

/-- Handler `BalanceHandle` (telegram.go:134-178): the report message is built up
locally and sent to the requesting sender only after every lookup succeeded;
any failed lookup is logged, classified via `t.OnError` and aborts. -/
def BalanceHandle (s : Settings) (eng : Engine) : List Eff × Option String :=
  match eng.account with
  | .error e => ([.accountLookup, .notifyError], some e)
  | .ok acct =>
    match balLoop eng acct s.pairs [] [] 0 with
    | (effs, .error e) => (Eff.accountLookup :: effs ++ [.notifyError], some e)
    | (effs, .ok r) =>
      let fin := r.2.1.foldl
        (fun acc kv => (acc.1 ++ [BalLine.quoteLine kv.1 kv.2], acc.2 + kv.2))
        (r.1, r.2.2)
      (Eff.accountLookup :: effs ++ [.replyReport (fin.1 ++ [.totalLine fin.2])], none)

/-- First whitespace-delimited token of a message text, used to model
telebot's per-command dispatch (`client.Handle("/buy", …)` etc.,
telegram.go:103-110). -/
def firstToken (text : String) : String :=
  String.mk (text.data.takeWhile (fun c => !spaceChar c))

/-- Per-command routing of an accepted message, after the access filter. -/
def route (s : Settings) (eng : Engine) (text : String) : List Eff :=
  let tok := firstToken text
  if tok == "/help" then (HelpHandle eng).1
  else if tok == "/start" then (StartHandle eng.status).1
  else if tok == "/stop" then (StopHandle eng.status).1
  else if tok == "/status" then StatusHandle eng.status
  else if tok == "/balance" then (BalanceHandle s eng).1
  else if tok == "/profit" then ProfitHandle eng
  else if tok == "/buy" then (BuyHandle eng text).1
  else if tok == "/sell" then (SellHandle eng text).1
  else []

/-- One inbound update end to end: the middleware access filter runs before
any handler, and a rejected update produces no effect at all (no reply, no
engine call). -/
def dispatch (s : Settings) (eng : Engine) (u : Update) : List Eff :=
  if accessFilter s.users u then
    match u.message with
    | some msg => route s eng msg.text
    | none => []
  else []

/-- The report line `BalanceHandle` appends for one pair when its quote
lookup succeeds (telegram.go:147-163), reconstructed from the engine data. -/
def pairLineOf (eng : Engine) (acct : String → Balance) (p : String) : BalLine :=
  let aq := eng.splitAssetQuote p
  let assetSize := (acct aq.1).free + (acct aq.1).lock
  BalLine.pairLine aq.1 assetSize
    (assetSize * (match eng.lastQuote p with | .ok q => q | .error _ => 0)) aq.2

/-- Concrete engine used to instantiate the theorems: position `(3/2, 1000)`
for every pair, all calls succeeding. -/
def engW : Engine where
  status := .stopped
  position := fun _ => .ok (3/2, 1000)
  createOrderMarketQuote := fun _ _ _ => .ok ()
  createOrderMarket := fun _ _ _ => .ok ()
  account := .ok (fun _ => ⟨0, 0⟩)
  lastQuote := fun _ => .ok 10
  splitAssetQuote := fun p => (p, p)
  commands := .ok []
  results := []

/-- Concrete engine whose every external call fails. -/
def engFail : Engine where
  status := .stopped
  position := fun _ => .error "engine unavailable"
  createOrderMarketQuote := fun _ _ _ => .error "engine unavailable"
  createOrderMarket := fun _ _ _ => .error "engine unavailable"
  account := .error "engine unavailable"
  lastQuote := fun _ => .error "engine unavailable"
  splitAssetQuote := fun p => (p, p)
  commands := .error "engine unavailable"
  results := []

/-- The amount `0.<323 zeros>2` (value `2 * 10^-324`): below half the least
subnormal, so `strconv.ParseFloat` returns exactly `0` with no error. -/
def tinyZeroAmount : List Char := '0' :: '.' :: (List.replicate 323 '0' ++ ['2'])

/-- A `/buy` command text whose amount parses to exactly `0`. -/
def tinyBuyText : String := String.mk ("/buy BTCUSDT ".data ++ tinyZeroAmount)

/-- The amount `0.<339 zeros>1` (value `10^-340`): decimal exponent `-339`
is below the `-330` cutoff, so `strconv.ParseFloat` fails with `ErrRange`. -/
def underflowAmount : List Char := '0' :: '.' :: (List.replicate 339 '0' ++ ['1'])

/-- A `/buy` command text whose amount substring underflows. -/
def underflowBuyText : String := String.mk ("/buy BTCUSDT ".data ++ underflowAmount)

/-- A percent `/sell` command text whose amount substring underflows. -/
def underflowSellText : String :=
  String.mk ("/sell BTCUSDT ".data ++ underflowAmount ++ ['%'])

end NinjaTg

deriving instance DecidableEq for Except

namespace NinjaTg

/-- C1: for a successfully parsed order intent with pair `P` and amount `A`
(regexp match, amount parsed, amount positive): a buy without the percent
marker submits a quote-denominated market order for the literal `A`; a buy
with the percent marker first fetches the position and submits a
quote-denominated order for `A * quoteQuantity / 100`; a sell with the
percent marker first fetches the position and submits an asset-denominated
order for `A * assetQuantity / 100`; a sell without the marker submits a
quote-denominated order for the literal `A`. -/
theorem order_sizing_resolution (eng : Engine) (text : String) :
    (∀ m A, buyFind text = some m → parseFloat m.amountStr = Except.ok A → ¬ A ≤ 0 →
        m.percent = false →
        (BuyHandle eng text).1 = [Eff.orderQuote Side.buy (upperPair m.pair) A])
    ∧ (∀ m A aq qq, buyFind text = some m → parseFloat m.amountStr = Except.ok A → ¬ A ≤ 0 →
        m.percent = true → eng.position (upperPair m.pair) = Except.ok (aq, qq) →
        (BuyHandle eng text).1 =
          [Eff.positionLookup (upperPair m.pair),
           Eff.orderQuote Side.buy (upperPair m.pair) (A * qq / 100)])
    ∧ (∀ m A, sellFind text = some m → parseFloat m.amountStr = Except.ok A → ¬ A ≤ 0 →
        m.percent = false →
        (SellHandle eng text).1 = [Eff.orderQuote Side.sell (upperPair m.pair) A])
    ∧ (∀ m A aq qq, sellFind text = some m → parseFloat m.amountStr = Except.ok A → ¬ A ≤ 0 →
        m.percent = true → eng.position (upperPair m.pair) = Except.ok (aq, qq) →
        (SellHandle eng text).1 =
          [Eff.positionLookup (upperPair m.pair),
           Eff.orderAsset Side.sell (upperPair m.pair) (A * aq / 100)]) := by
  refine ⟨?_, ?_, ?_, ?_⟩
  · intro m A hm hp hA hper
    simp [BuyHandle, hm, hp, hA, hper]
  · intro m A aq qq hm hp hA hper hpos
    simp [BuyHandle, hm, hp, hA, hper, hpos]
  · intro m A hm hp hA hper
    simp [SellHandle, hm, hp, hA, hper]
  · intro m A aq qq hm hp hA hper hpos
    simp [SellHandle, hm, hp, hA, hper, hpos]

/-- Spec §8 sizing example: buy 20% with quote quantity 1000 resolves to a
quote-denominated order for 200. -/
theorem buy_percent_sizing_example :
    (BuyHandle engW "/buy BTCUSDT 20%").1 =
      [Eff.positionLookup "BTCUSDT", Eff.orderQuote Side.buy "BTCUSDT" 200] := by
  have h : buyFind "/buy BTCUSDT 20%" = some ⟨"BTCUSDT".data, "20".data, true⟩ := by decide
  have hu : upperPair "BTCUSDT".data = "BTCUSDT" := by decide
  have hp : parseFloat "20".data = Except.ok 20 := by decide
  simp only [BuyHandle, h, hp, hu]
  norm_num [engW]

/-- Spec §8 sizing example: sell 50% with asset quantity 3/2 resolves to an
asset-denominated order for 3/4. -/
theorem sell_percent_sizing_example :
    (SellHandle engW "/sell BTCUSDT 50%").1 =
      [Eff.positionLookup "BTCUSDT", Eff.orderAsset Side.sell "BTCUSDT" (3/4)] := by
  have h : sellFind "/sell BTCUSDT 50%" = some ⟨"BTCUSDT".data, "50".data, true⟩ := by decide
  have hu : upperPair "BTCUSDT".data = "BTCUSDT" := by decide
  have hp : parseFloat "50".data = Except.ok 50 := by decide
  simp only [SellHandle, h, hp, hu]
  norm_num [engW]

set_option maxRecDepth 8000 in
/-- The amount `0.<323 zeros>2` is below half the least subnormal, so
`strconv.ParseFloat` returns exactly `0` with no error. -/
theorem parseFloat_rounds_to_zero : parseFloat tinyZeroAmount = Except.ok 0 := by
  have hsp : tinyZeroAmount.span digitChar =
      (['0'], '.' :: (List.replicate 323 '0' ++ ['2'])) := by decide
  have hz : digitsVal ['0'] = 0 := by decide
  have h2 : digitsVal (List.replicate 323 '0' ++ ['2']) = 2 := by decide
  have hlen : (List.replicate 323 '0' ++ ['2']).length = 324 := by decide
  have h1 : ¬ floatRangeBound ≤ decimalValue tinyZeroAmount := by
    rw [decimalValue, hsp]
    simp only [hz, h2, hlen]
    norm_num [floatRangeBound]
  have hu : underflowRange tinyZeroAmount = false := by decide
  have hr : roundsToZero tinyZeroAmount = true := by decide
  simp [parseFloat, h1, hu, hr]

set_option maxRecDepth 8000 in
/-- A grammar-matching amount that parses to exactly `0` takes the
non-positive-amount validation branch: the sender is told "Invalid amount"
and no engine call happens. -/
theorem tiny_amount_invalid_reply :
    BuyHandle engW tinyBuyText = ([Eff.reply "Invalid amount"], none) := by
  have hm : buyFind tinyBuyText = some ⟨"BTCUSDT".data, tinyZeroAmount, false⟩ := by decide
  simp [BuyHandle, hm, parseFloat_rounds_to_zero]

set_option maxRecDepth 8000 in
/-- The amount `0.<339 zeros>1` has decimal exponent `-339 < -330`:
`strconv.ParseFloat` fails with `ErrRange`. -/
theorem parseFloat_underflow_error :
    parseFloat underflowAmount =
      Except.error "strconv.ParseFloat: parsing: value out of range" := by
  have hsp : underflowAmount.span digitChar =
      (['0'], '.' :: (List.replicate 339 '0' ++ ['1'])) := by decide
  have hz : digitsVal ['0'] = 0 := by decide
  have h2 : digitsVal (List.replicate 339 '0' ++ ['1']) = 1 := by decide
  have hlen : (List.replicate 339 '0' ++ ['1']).length = 340 := by decide
  have h1 : ¬ floatRangeBound ≤ decimalValue underflowAmount := by
    rw [decimalValue, hsp]
    simp only [hz, h2, hlen]
    norm_num [floatRangeBound]
  have hu : underflowRange underflowAmount = true := by decide
  simp [parseFloat, h1, hu]

set_option maxRecDepth 8000 in
/-- A `/buy` amount that underflows is routed through `t.OnError` — the
broadcast path — with no direct reply and no engine call. -/
theorem amount_underflow_error_broadcast :
    BuyHandle engW underflowBuyText =
      ([Eff.notifyError], some "strconv.ParseFloat: parsing: value out of range") := by
  have hm : buyFind underflowBuyText = some ⟨"BTCUSDT".data, underflowAmount, false⟩ := by
    decide
  simp [BuyHandle, hm, parseFloat_underflow_error]

set_option maxRecDepth 8000 in
/-- A percent `/sell` amount that underflows fails at `ParseFloat`
(telegram.go:289-291): `t.OnError` broadcast, and no position lookup is
reached. -/
theorem sell_underflow_error_broadcast :
    SellHandle engW underflowSellText =
      ([Eff.notifyError], some "strconv.ParseFloat: parsing: value out of range") := by
  have hm : sellFind underflowSellText = some ⟨"BTCUSDT".data, underflowAmount, true⟩ := by
    decide
  simp [SellHandle, hm, parseFloat_underflow_error]

/-- C3 (counterexample): a percent sell whose position lookup fails returns
the engine error to the caller with no `t.OnError` call — the failure is not
propagated to the Error Classifier, so it is not broadcast. -/
theorem sell_position_error_not_broadcast_cex :
    SellHandle engFail "/sell BTCUSDT 50%" =
      ([Eff.positionLookup "BTCUSDT"], some "engine unavailable")
    ∧ Eff.notifyError ∉ (SellHandle engFail "/sell BTCUSDT 50%").1 := by
  decide

/-- C3 (amended): on a percent buy, a position lookup failure fails the
handler with the engine error and routes it through the Error Classifier;
on a percent sell, the handler fails with the engine error but returns it to
its caller without any Error Classifier call. -/
theorem position_lookup_error_routing (eng : Engine) (text : String) :
    (∀ m A e, buyFind text = some m → parseFloat m.amountStr = Except.ok A → ¬ A ≤ 0 →
        m.percent = true → eng.position (upperPair m.pair) = Except.error e →
        BuyHandle eng text =
          ([Eff.positionLookup (upperPair m.pair), Eff.notifyError], some e))
    ∧ (∀ m A e, sellFind text = some m → parseFloat m.amountStr = Except.ok A → ¬ A ≤ 0 →
        m.percent = true → eng.position (upperPair m.pair) = Except.error e →
        SellHandle eng text = ([Eff.positionLookup (upperPair m.pair)], some e)
        ∧ Eff.notifyError ∉ (SellHandle eng text).1) := by
  refine ⟨?_, ?_⟩
  · intro m A e hm hp hA hper hpos
    simp [BuyHandle, hm, hp, hA, hper, hpos]
  · intro m A e hm hp hA hper hpos
    refine ⟨?_, ?_⟩ <;> simp [SellHandle, hm, hp, hA, hper, hpos]

/-- C4: the access filter accepts an update exactly when it has a message
with a sender whose identity equals an allow-list entry; a rejected update
is dropped before any routing, producing no reply, no classifier call and no
engine call — for every command, `/help` included. -/
theorem access_filter_allowlist_gate (s : Settings) (eng : Engine) (u : Update) :
    (accessFilter s.users u = true ↔
      ∃ msg sndr, u.message = some msg ∧ msg.sender = some sndr ∧ sndr.id ∈ s.users)
    ∧ (accessFilter s.users u = false → dispatch s eng u = []) := by
  constructor
  · cases hm : u.message with
    | none => simp [accessFilter, hm]
    | some msg =>
      cases hs : msg.sender with
      | none => simp [accessFilter, hm, hs]
      | some sndr =>
        simp [accessFilter, hm, hs, List.any_eq_true, beq_iff_eq]
  · intro h
    simp [dispatch, h]

/-- C6: a buy or sell command text the grammar rejects — `/buy` without
arguments and `/sell BTCUSDT -5` with its negative amount included — makes
the handler reply the usage-example literal to the sender and stop, with no
engine effect of any kind. -/
theorem nonmatching_command_parse_error (eng : Engine) (text : String) :
    (buyFind text = none → BuyHandle eng text = ([Eff.reply buyUsage], none))
    ∧ (sellFind text = none → SellHandle eng text = ([Eff.reply sellUsage], none))
    ∧ buyFind "/buy" = none
    ∧ sellFind "/sell BTCUSDT -5" = none := by
  refine ⟨?_, ?_, by decide, by decide⟩
  · intro h; simp [BuyHandle, h]
  · intro h; simp [SellHandle, h]

/-- C7: `/start` invokes the engine start exactly when the state is not
Running and `/stop` invokes stop exactly when it is not Stopped; an already
matching state only gets the informational reply, and the state after
`/start` is always Running, after `/stop` always Stopped — so no transition
beyond Stopped-to-Running via `/start` and Running-to-Stopped via `/stop`
is reachable from this handler pair. -/
theorem start_stop_guarded_transitions (st : BotStatus) :
    (Eff.engineStart ∈ (StartHandle st).1 ↔ st ≠ BotStatus.running)
    ∧ (Eff.engineStop ∈ (StopHandle st).1 ↔ st ≠ BotStatus.stopped)
    ∧ (StartHandle st).2 = BotStatus.running
    ∧ (StopHandle st).2 = BotStatus.stopped
    ∧ (StartHandle BotStatus.running).1 = [Eff.reply "Bot is already running."]
    ∧ (StopHandle BotStatus.stopped).1 = [Eff.reply "Bot is already stopped."]
    ∧ (StartHandle BotStatus.stopped).1 = [Eff.engineStart, Eff.reply "Bot started."]
    ∧ (StopHandle BotStatus.running).1 = [Eff.engineStop, Eff.reply "Bot stopped."] := by
  cases st <;> simp [StartHandle, StopHandle]

/-- C8: notification fan-out attempts one send per allow-listed recipient in
order, regardless of which individual sends fail, and every recipient gets
an attempt with the same message body; the fan-out has no error result. -/
theorem notify_fanout_attempts_all (sendFail : Int → Bool) (text : String) (users : List Int) :
    (Notify sendFail text users).map Prod.fst = users
    ∧ ∀ u, u ∈ users → (u, text, sendFail u) ∈ Notify sendFail text users := by
  induction users with
  | nil => simp [Notify]
  | cons a l ih =>
    refine ⟨by simp [Notify, ih.1], ?_⟩
    intro u hu
    rcases List.mem_cons.mp hu with h | h
    · subst h; simp [Notify]
    · exact List.mem_cons_of_mem _ (ih.2 u h)

end NinjaTg

namespace NinjaTg

/-- Helper: every effect emitted by the balance loop is a quote lookup. -/
theorem balLoop_effects_are_lookups (eng : Engine) (acct : String → Balance) :
    ∀ (ps : List String) (lines : List BalLine) (qv : List (String × ℚ)) (total : ℚ),
      ∀ e ∈ (balLoop eng acct ps lines qv total).1, ∃ p, e = Eff.quoteLookup p := by
  intro ps
  induction ps with
  | nil => intro lines qv total e he; simp [balLoop] at he
  | cons p rest ih =>
    intro lines qv total e he
    cases hq : eng.lastQuote p with
    | error err =>
      simp [balLoop, hq] at he
      exact ⟨p, he⟩
    | ok q =>
      simp [balLoop, hq] at he
      rcases he with he | he
      · exact ⟨p, he⟩
      · exact ih _ _ _ e he

/-- Helper: one failing quote lookup makes the balance loop return an
error. -/
theorem balLoop_error_of_exists (eng : Engine) (acct : String → Balance) :
    ∀ (ps : List String) (lines : List BalLine) (qv : List (String × ℚ)) (total : ℚ),
      (∃ p ∈ ps, (eng.lastQuote p).isOk = false) →
      ∃ e, (balLoop eng acct ps lines qv total).2 = Except.error e := by
  intro ps
  induction ps with
  | nil => intro lines qv total h; simp at h
  | cons p rest ih =>
    intro lines qv total h
    cases hq : eng.lastQuote p with
    | error err => exact ⟨err, by simp [balLoop, hq]⟩
    | ok q =>
      have hrest : ∃ x ∈ rest, (eng.lastQuote x).isOk = false := by
        rcases h with ⟨x, hx, hfail⟩
        rcases List.mem_cons.mp hx with rfl | hx2
        · rw [hq] at hfail; simp [Except.isOk, Except.toBool] at hfail
        · exact ⟨x, hx2, hfail⟩
      simp only [balLoop, hq]
      exact ih _ _ _ hrest

/-- Helper: with every quote lookup succeeding, the balance loop emits one
lookup per pair and accumulates one report line per pair, in order. -/
theorem balLoop_ok_shape (eng : Engine) (acct : String → Balance) :
    ∀ (ps : List String) (lines : List BalLine) (qv : List (String × ℚ)) (total : ℚ),
      (∀ p ∈ ps, (eng.lastQuote p).isOk = true) →
      ∃ qv' tot', balLoop eng acct ps lines qv total =
        (ps.map Eff.quoteLookup,
         Except.ok (lines ++ ps.map (pairLineOf eng acct), qv', tot')) := by
  intro ps
  induction ps with
  | nil => intro lines qv total _; exact ⟨qv, total, by simp [balLoop]⟩
  | cons p rest ih =>
    intro lines qv total hall
    have hp : (eng.lastQuote p).isOk = true := hall p (List.mem_cons_self p rest)
    cases hq : eng.lastQuote p with
    | error e => rw [hq] at hp; simp [Except.isOk, Except.toBool] at hp
    | ok q =>
      have hrest : ∀ x ∈ rest, (eng.lastQuote x).isOk = true :=
        fun x hx => hall x (List.mem_cons_of_mem _ hx)
      have hline : BalLine.pairLine (eng.splitAssetQuote p).1
          ((acct (eng.splitAssetQuote p).1).free + (acct (eng.splitAssetQuote p).1).lock)
          (((acct (eng.splitAssetQuote p).1).free + (acct (eng.splitAssetQuote p).1).lock) * q)
          (eng.splitAssetQuote p).2 = pairLineOf eng acct p := by
        simp [pairLineOf, hq]
      obtain ⟨qv', tot', hrec⟩ := ih
        (lines ++ [pairLineOf eng acct p])
        (quotesInsert qv (eng.splitAssetQuote p).2
          ((acct (eng.splitAssetQuote p).2).free + (acct (eng.splitAssetQuote p).2).lock))
        (total + ((acct (eng.splitAssetQuote p).1).free + (acct (eng.splitAssetQuote p).1).lock) * q)
        hrest
      refine ⟨qv', tot', ?_⟩
      simp only [balLoop, hq, hline, hrec]
      simp [List.append_assoc]

/-- Helper: the closing fold over the quote map appends exactly one quote
line per map entry. -/
theorem quotesFold_fst (qv : List (String × ℚ)) :
    ∀ (ls : List BalLine) (t : ℚ),
      (List.foldl (fun acc kv => (acc.1 ++ [BalLine.quoteLine kv.1 kv.2], acc.2 + kv.2)) (ls, t) qv).1
        = ls ++ qv.map (fun kv => BalLine.quoteLine kv.1 kv.2) := by
  induction qv with
  | nil => intro ls t; simp
  | cons kv rest ih =>
    intro ls t
    simp only [List.foldl_cons, List.map_cons]
    rw [ih]
    simp

/-- C9: `/balance` aborts on the first failing lookup — account lookup
failure or any per-pair quote lookup failure yields a classifier call and an
error, with no reply of any kind reaching the sender — and only when every
lookup succeeds does the sender receive a single report containing one line
per configured pair plus the quote lines and the grand total. -/
theorem balance_abort_or_full_report (s : Settings) (eng : Engine) :
    (∀ e, eng.account = Except.error e →
        BalanceHandle s eng = ([Eff.accountLookup, Eff.notifyError], some e))
    ∧ (∀ acct, eng.account = Except.ok acct →
        (∃ p ∈ s.pairs, (eng.lastQuote p).isOk = false) →
        (BalanceHandle s eng).2.isSome = true
        ∧ Eff.notifyError ∈ (BalanceHandle s eng).1
        ∧ (∀ r, Eff.replyReport r ∉ (BalanceHandle s eng).1)
        ∧ (∀ msg, Eff.reply msg ∉ (BalanceHandle s eng).1))
    ∧ (∀ acct, eng.account = Except.ok acct →
        (∀ p ∈ s.pairs, (eng.lastQuote p).isOk = true) →
        (BalanceHandle s eng).2 = none
        ∧ ∃ qlines tot, (BalanceHandle s eng).1 =
            Eff.accountLookup :: s.pairs.map Eff.quoteLookup
              ++ [Eff.replyReport (s.pairs.map (pairLineOf eng acct)
                    ++ qlines ++ [BalLine.totalLine tot])]) := by
  refine ⟨?_, ?_, ?_⟩
  · intro e he
    simp [BalanceHandle, he]
  · intro acct hacc hex
    obtain ⟨e, he⟩ := balLoop_error_of_exists eng acct s.pairs [] [] 0 hex
    rcases hbl : balLoop eng acct s.pairs [] [] 0 with ⟨effs, res⟩
    rw [hbl] at he
    simp at he
    subst he
    have heffs : ∀ x ∈ effs, ∃ p, x = Eff.quoteLookup p := by
      intro x hx
      exact balLoop_effects_are_lookups eng acct s.pairs [] [] 0 x (by rw [hbl]; exact hx)
    refine ⟨by simp [BalanceHandle, hacc, hbl], by simp [BalanceHandle, hacc, hbl], ?_, ?_⟩
    · intro r hr
      simp [BalanceHandle, hacc, hbl] at hr
      obtain ⟨p, hp⟩ := heffs _ hr
      simp at hp
    · intro msg hmsg
      simp [BalanceHandle, hacc, hbl] at hmsg
      obtain ⟨p, hp⟩ := heffs _ hmsg
      simp at hp
  · intro acct hacc hall
    obtain ⟨qv', tot', hbl⟩ := balLoop_ok_shape eng acct s.pairs [] [] 0 hall
    have hfold := quotesFold_fst qv' (s.pairs.map (pairLineOf eng acct)) tot'
    refine ⟨by simp [BalanceHandle, hacc, hbl], ?_⟩
    refine ⟨qv'.map (fun kv => BalLine.quoteLine kv.1 kv.2),
      (List.foldl (fun acc kv => (acc.1 ++ [BalLine.quoteLine kv.1 kv.2], acc.2 + kv.2))
        (s.pairs.map (pairLineOf eng acct), tot') qv').2, ?_⟩
    simp [BalanceHandle, hacc, hbl, hfold]

/-- Helper: a successful attempt at the head position is returned by the
scan. -/
theorem findFrom_here (kw s : List Char) (m : RawIntent) (h : matchHere kw s = some m) :
    findFrom kw s = some m := by
  cases s with
  | nil => simpa [findFrom] using h
  | cons c rest => simp [findFrom, h]

/-- Helper: a failed attempt at the head position makes the scan move one
character right. -/
theorem findFrom_cons_none (kw : List Char) (c : Char) (rest : List Char)
    (h : matchHere kw (c :: rest) = none) :
    findFrom kw (c :: rest) = findFrom kw rest := by
  simp [findFrom, h]

/-- Helper: a successful attempt anywhere in the text makes the scan
succeed. -/
theorem findFrom_append_isSome (kw pre mid : List Char) (m : RawIntent)
    (h : matchHere kw mid = some m) :
    (findFrom kw (pre ++ mid)).isSome = true := by
  induction pre with
  | nil => simp [findFrom_here kw mid m h]
  | cons c pre ih =>
    rw [List.cons_append]
    cases hh : matchHere kw (c :: (pre ++ mid)) with
    | some m2 => simp [findFrom, hh]
    | none => rw [findFrom_cons_none kw c (pre ++ mid) hh]; exact ih

/-- C10: the buy/sell grammar match is unanchored — any text containing a
substring where the pattern matches parses successfully, the scan returns
the match at the leftmost matching position, and surrounding text is
ignored; in particular `/buy BTCUSDT 100abc` parses with amount 100 and
submits an order for 100 instead of failing. -/
theorem unanchored_grammar_match (pre mid rest : List Char) (c : Char) (m : RawIntent) :
    (matchHere "/buy".data mid = some m →
        (findFrom "/buy".data (pre ++ mid)).isSome = true)
    ∧ (matchHere "/buy".data (c :: rest) = none →
        findFrom "/buy".data (c :: rest) = findFrom "/buy".data rest)
    ∧ (matchHere "/buy".data rest = some m → findFrom "/buy".data rest = some m)
    ∧ buyFind "/buy BTCUSDT 100abc" = some ⟨"BTCUSDT".data, "100".data, false⟩
    ∧ (BuyHandle engW "/buy BTCUSDT 100abc").1 =
        [Eff.orderQuote Side.buy "BTCUSDT" 100] := by
  exact ⟨fun h => findFrom_append_isSome _ _ _ _ h,
         fun h => findFrom_cons_none _ _ _ h,
         fun h => findFrom_here _ _ _ h,
         by decide, by decide⟩

end NinjaTg
